import Mathlib

/-
Verification of the job-aggregation pipeline: a shallow embedding of the
extraction, structuring, identity and storage code, with theorems checking
the natural-language specification against it.

Python strings are embedded as lists of characters (code points); machine
integers appearing in the MD5 hash are Nat values reduced modulo 2 ^ 32.
-/

namespace JobAgg

/-- Python strings, embedded as lists of code points. -/
abbrev PyStr := List Char

/-- Coerce a Lean string literal to the embedded string type. -/
def lit (s : String) : PyStr := s.toList

/-- The opening curly brace character. -/
def lbrace : Char := Char.ofNat 123

/-- The closing curly brace character. -/
def rbrace : Char := Char.ofNat 125

/-- ASCII whitespace, the characters stripped by the Python str.strip
method (restricted to the ASCII range used by this code base). -/
def isPyWs (c : Char) : Bool :=
  c = ' ' ∨ c = '\t' ∨ c = '\n' ∨ c = '\r' ∨ c = Char.ofNat 11 ∨ c = Char.ofNat 12

/-- Python str.strip: drop whitespace from both ends. -/
def pyStrip (s : PyStr) : PyStr :=
  ((s.dropWhile isPyWs).reverse.dropWhile isPyWs).reverse

/-- Truthiness of an embedded Python string: nonempty strings are truthy. -/
def pyTruthyStr (s : PyStr) : Bool := s ≠ []

/-- Python `x or y` on optional strings: the left operand wins when it is
present and truthy (nonempty), otherwise the right operand is returned. -/
def pyOr (a b : Option PyStr) : Option PyStr :=
  match a with
  | some s => if s = [] then b else some s
  | none => b

/-! ## MD5 (hashlib.md5 over UTF-8 bytes, hexdigest output) -/

/-- 2 ^ 32, the modulus of 32-bit machine arithmetic. -/
def M32 : Nat := 4294967296

/-- Rotate a 32-bit word left by s bits. -/
def rotl32 (x s : Nat) : Nat :=
  ((x <<< s) % M32) ||| (x >>> (32 - s))

/-- The 64 MD5 round constants (RFC 1321 T table). -/
def md5K : List Nat :=
  [0xd76aa478, 0xe8c7b756, 0x242070db, 0xc1bdceee,
   0xf57c0faf, 0x4787c62a, 0xa8304613, 0xfd469501,
   0x698098d8, 0x8b44f7af, 0xffff5bb1, 0x895cd7be,
   0x6b901122, 0xfd987193, 0xa679438e, 0x49b40821,
   0xf61e2562, 0xc040b340, 0x265e5a51, 0xe9b6c7aa,
   0xd62f105d, 0x02441453, 0xd8a1e681, 0xe7d3fbc8,
   0x21e1cde6, 0xc33707d6, 0xf4d50d87, 0x455a14ed,
   0xa9e3e905, 0xfcefa3f8, 0x676f02d9, 0x8d2a4c8a,
   0xfffa3942, 0x8771f681, 0x6d9d6122, 0xfde5380c,
   0xa4beea44, 0x4bdecfa9, 0xf6bb4b60, 0xbebfbc70,
   0x289b7ec6, 0xeaa127fa, 0xd4ef3085, 0x04881d05,
   0xd9d4d039, 0xe6db99e5, 0x1fa27cf8, 0xc4ac5665,
   0xf4292244, 0x432aff97, 0xab9423a7, 0xfc93a039,
   0x655b59c3, 0x8f0ccc92, 0xffeff47d, 0x85845dd1,
   0x6fa87e4f, 0xfe2ce6e0, 0xa3014314, 0x4e0811a1,
   0xf7537e82, 0xbd3af235, 0x2ad7d2bb, 0xeb86d391]

/-- The 64 MD5 per-round left-rotation amounts. -/
def md5S : List Nat :=
  [7, 12, 17, 22, 7, 12, 17, 22, 7, 12, 17, 22, 7, 12, 17, 22,
   5, 9, 14, 20, 5, 9, 14, 20, 5, 9, 14, 20, 5, 9, 14, 20,
   4, 11, 16, 23, 4, 11, 16, 23, 4, 11, 16, 23, 4, 11, 16, 23,
   6, 10, 15, 21, 6, 10, 15, 21, 6, 10, 15, 21, 6, 10, 15, 21]

/-- MD5 round function F, selected by the round index. -/
def md5F (i b c d : Nat) : Nat :=
  if i < 16 then (b &&& c) ||| ((4294967295 - b) &&& d)
  else if i < 32 then (d &&& b) ||| ((4294967295 - d) &&& c)
  else if i < 48 then (b ^^^ c) ^^^ d
  else c ^^^ (b ||| (4294967295 - d))

/-- MD5 message-word index for a given round. -/
def md5G (i : Nat) : Nat :=
  if i < 16 then i
  else if i < 32 then (5 * i + 1) % 16
  else if i < 48 then (3 * i + 5) % 16
  else (7 * i) % 16

/-- Read the 32-bit little-endian word number g of a 64-byte block. -/
def md5Word (block : List Nat) (g : Nat) : Nat :=
  block.getD (4 * g) 0 + 256 * block.getD (4 * g + 1) 0 +
    65536 * block.getD (4 * g + 2) 0 + 16777216 * block.getD (4 * g + 3) 0

/-- One MD5 round applied to the running (a, b, c, d) state. -/
def md5Round (block : List Nat) (st : Nat × Nat × Nat × Nat) (i : Nat) :
    Nat × Nat × Nat × Nat :=
  let a := st.1
  let b := st.2.1
  let c := st.2.2.1
  let d := st.2.2.2
  let f := md5F i b c d
  let g := md5G i
  let tmp := (a + f + md5K.getD i 0 + md5Word block g) % M32
  let nb := (b + rotl32 tmp (md5S.getD i 0)) % M32
  (d, nb, b, c)

/-- Process one 64-byte block, updating the MD5 chaining state. -/
def md5Block (st : Nat × Nat × Nat × Nat) (block : List Nat) :
    Nat × Nat × Nat × Nat :=
  let r := (List.range 64).foldl (md5Round block) st
  ((st.1 + r.1) % M32, (st.2.1 + r.2.1) % M32,
   (st.2.2.1 + r.2.2.1) % M32, (st.2.2.2 + r.2.2.2) % M32)

/-- Little-endian byte rendering of a number, over a fixed byte count. -/
def leBytes : Nat → Nat → List Nat
  | 0, _ => []
  | k + 1, n => n % 256 :: leBytes k (n / 256)

/-- MD5 padding: append 0x80, zero bytes up to 56 mod 64, then the
64-bit little-endian bit length of the original message. -/
def md5Pad (msg : List Nat) : List Nat :=
  let len := msg.length
  let zeros := (119 - len % 64) % 64
  msg ++ [128] ++ List.replicate zeros 0 ++ leBytes 8 ((8 * len) % 2 ^ 64)

/-- Split a byte list into 64-byte chunks, driven by explicit fuel. -/
def chunks64 : Nat → List Nat → List (List Nat)
  | 0, _ => []
  | _, [] => []
  | fuel + 1, l => l.take 64 :: chunks64 fuel (l.drop 64)

/-- The 16 digest bytes of the MD5 hash of a byte message. -/
def md5Bytes (msg : List Nat) : List Nat :=
  let st := (chunks64 (msg.length + 80) (md5Pad msg)).foldl md5Block
    (0x67452301, 0xefcdab89, 0x98badcfe, 0x10325476)
  leBytes 4 st.1 ++ leBytes 4 st.2.1 ++ leBytes 4 st.2.2.1 ++ leBytes 4 st.2.2.2

/-- Lowercase hexadecimal digit for a value below 16. -/
def hexDigit (n : Nat) : Char :=
  if n < 10 then Char.ofNat (48 + n) else Char.ofNat (87 + n)

/-- UTF-8 encoding of one code point. -/
def utf8Char (n : Nat) : List Nat :=
  if n < 128 then [n]
  else if n < 2048 then [192 ||| (n >>> 6), 128 ||| (n &&& 63)]
  else if n < 65536 then
    [224 ||| (n >>> 12), 128 ||| ((n >>> 6) &&& 63), 128 ||| (n &&& 63)]
  else
    [240 ||| (n >>> 18), 128 ||| ((n >>> 12) &&& 63),
     128 ||| ((n >>> 6) &&& 63), 128 ||| (n &&& 63)]

/-- UTF-8 encoding of an embedded string, as the Python str.encode method. -/
def utf8 (s : PyStr) : List Nat :=
  s.foldr (fun c acc => utf8Char c.toNat ++ acc) []

/-- hashlib.md5 hexdigest of the UTF-8 encoding of a string: 32 lowercase
hexadecimal characters. -/
def md5hex (s : PyStr) : PyStr :=
  (md5Bytes (utf8 s)).foldr
    (fun b acc => hexDigit (b / 16) :: hexDigit (b % 16) :: acc) []

/-! ## JSON values and a model of json.loads

Python json.loads is standard-library code, not part of this repository;
it is modelled here by an executable parser of the JSON fragment the code
actually exchanges: objects, arrays, strings with simple escapes, integer
numbers, booleans and null.  Floating-point literals and \u escapes are
outside the model.  A successful parse consumes the entire input up to
trailing whitespace, as json.loads requires. -/

/-- An embedded JSON value (the result of json.loads). -/
inductive JValue where
  | null
  | bool (b : Bool)
  | num (n : Int)
  | str (s : PyStr)
  | arr (xs : List JValue)
  | obj (fields : List (PyStr × JValue))

/-- A parsed Python dict with string keys, as json.loads produces for a
JSON object; later duplicate keys override earlier ones. -/
abbrev Obj := List (PyStr × JValue)

/-- Python dict.get k default: the binding of the last occurrence of the
key wins, mirroring json object construction into a dict. -/
def objGet (d : Obj) (k : PyStr) (dflt : JValue) : JValue :=
  match d.reverse.find? (fun kv => decide (kv.1 = k)) with
  | some kv => kv.2
  | none => dflt

/-- Python truthiness of a parsed JSON value. -/
def pyTruthy : JValue → Bool
  | .null => false
  | .bool b => b
  | .num n => n ≠ 0
  | .str s => s ≠ []
  | .arr xs => !xs.isEmpty
  | .obj d => !d.isEmpty

/-- JSON whitespace skipping (space, tab, newline, carriage return). -/
def jsSkipWs : List Char → List Char
  | c :: rest =>
    if c = ' ' ∨ c = '\t' ∨ c = '\n' ∨ c = '\r' then jsSkipWs rest else c :: rest
  | [] => []

/-- Decimal digit test. -/
def isDigit (c : Char) : Bool := '0' ≤ c ∧ c ≤ '9'

/-- Value of a decimal digit string. -/
def digitsToNat (ds : List Char) : Nat :=
  ds.foldl (fun a c => 10 * a + (c.toNat - 48)) 0

/-- A JSON string escape character (the \u form is outside the model). -/
def jsEsc (c : Char) : Option Char :=
  if c = '"' then some '"'
  else if c = '\\' then some '\\'
  else if c = '/' then some '/'
  else if c = 'n' then some '\n'
  else if c = 't' then some '\t'
  else if c = 'r' then some '\r'
  else if c = 'b' then some (Char.ofNat 8)
  else if c = 'f' then some (Char.ofNat 12)
  else none

/-- Parse the body of a JSON string after its opening quote, returning the
decoded text and the remaining input. -/
def jsString : List Char → Option (PyStr × List Char)
  | [] => none
  | '"' :: rest => some ([], rest)
  | '\\' :: e :: rest =>
    match jsEsc e with
    | some ce => (jsString rest).map (fun p => (ce :: p.1, p.2))
    | none => none
  | '\\' :: [] => none
  | c :: rest =>
    if c.toNat < 32 then none
    else (jsString rest).map (fun p => (c :: p.1, p.2))

/-- Parse an unsigned integer literal; a following fraction or exponent
marker is outside the modelled fragment and rejected. -/
def jsNat (s : List Char) : Option (Nat × List Char) :=
  let ds := s.takeWhile isDigit
  let rest := s.dropWhile isDigit
  if ds = [] then none
  else
    match rest with
    | '.' :: _ => none
    | 'e' :: _ => none
    | 'E' :: _ => none
    | _ => some (digitsToNat ds, rest)

/-- Parsing mode: a whole value, the tail of an array after at least one
element is due, or the tail of an object. -/
inductive JMode where
  | value
  | arrCont (acc : List JValue)
  | objCont (acc : Obj)

/-- Fuel-driven JSON parser.  Returns the parsed value and the remaining
input, or none when the input is not in the modelled JSON fragment. -/
def jsRun : Nat → JMode → List Char → Option (JValue × List Char)
  | 0, _, _ => none
  | fuel + 1, .value, s =>
    match jsSkipWs s with
    | [] => none
    | c :: rest =>
      if c = lbrace then
        match jsSkipWs rest with
        | c2 :: r2 =>
          if c2 = rbrace then some (.obj [], r2)
          else jsRun fuel (.objCont []) rest
        | [] => none
      else if c = '[' then
        match jsSkipWs rest with
        | ']' :: r2 => some (.arr [], r2)
        | _ => jsRun fuel (.arrCont []) rest
      else if c = '"' then
        (jsString rest).map (fun p => (.str p.1, p.2))
      else if c = '-' then
        (jsNat rest).map (fun p => (.num (-(p.1 : Int)), p.2))
      else if isDigit c then
        (jsNat (c :: rest)).map (fun p => (.num (p.1 : Int), p.2))
      else
        match c :: rest with
        | 't' :: 'r' :: 'u' :: 'e' :: r2 => some (.bool true, r2)
        | 'f' :: 'a' :: 'l' :: 's' :: 'e' :: r2 => some (.bool false, r2)
        | 'n' :: 'u' :: 'l' :: 'l' :: r2 => some (.null, r2)
        | _ => none
  | fuel + 1, .arrCont acc, s =>
    match jsRun fuel .value s with
    | none => none
    | some (v, rest) =>
      match jsSkipWs rest with
      | ',' :: r2 => jsRun fuel (.arrCont (acc ++ [v])) r2
      | ']' :: r2 => some (.arr (acc ++ [v]), r2)
      | _ => none
  | fuel + 1, .objCont acc, s =>
    match jsSkipWs s with
    | '"' :: rest =>
      match jsString rest with
      | none => none
      | some (k, r2) =>
        match jsSkipWs r2 with
        | ':' :: r3 =>
          match jsRun fuel .value r3 with
          | none => none
          | some (v, r4) =>
            match jsSkipWs r4 with
            | ',' :: r5 => jsRun fuel (.objCont (acc ++ [(k, v)])) r5
            | c5 :: r5 =>
              if c5 = rbrace then some (.obj (acc ++ [(k, v)]), r5) else none
            | [] => none
        | _ => none
    | _ => none

/-- Model of json.loads: parse one JSON value and require that only
whitespace follows it; any failure maps to none (a JSONDecodeError). -/
def jsonLoads (s : PyStr) : Option JValue :=
  match jsRun (3 * s.length + 8) .value s with
  | some (v, rest) => if jsSkipWs rest = [] then some v else none
  | none => none

/-- Python str() rendering of a parsed JSON value, as used inside an
f-string.  The rendering of containers is abbreviated; no theorem depends
on it, since the code only formats scalars. -/
def pyStrVal : JValue → PyStr
  | .str s => s
  | .null => lit "None"
  | .bool true => lit "True"
  | .bool false => lit "False"
  | .num n =>
    if n < 0 then '-' :: Nat.toDigits 10 n.natAbs else Nat.toDigits 10 n.natAbs
  | .arr _ => lit "[...]"
  | .obj _ => lit "\x7b...\x7d"

/-- The string payload of a JSON value, when it is a string; a non-string
value in a position where the code calls a str method makes the Python
code raise (and the caller catch), modelled by none. -/
def getStr? : JValue → Option PyStr
  | .str s => some s
  | _ => none

/-! ## utils.try_parse_datetime

dateutil.parser.parse is an external library; the repository code only
relies on it as a black box that either returns a datetime or raises.  It
is therefore a parameter of the model: a function from the dayfirst flag
and the cleaned string to an optional datetime, where none models a raised
exception (caught by the code).  A returned datetime object is always
truthy in Python, so the `if dt` test in the source always passes on a
successful parse. -/

/-- A Python datetime value, to the second (the precision the code
formats). -/
structure PyDateTime where
  year : Nat
  month : Nat
  day : Nat
  hour : Nat
  minute : Nat
  second : Nat
deriving DecidableEq

/-- The black-box dateutil parse function: dayfirst flag and input string
to an optional datetime (none models a raised exception). -/
abbrev DateParseFn := Bool → PyStr → Option PyDateTime

/-- Fixed-width zero-padded decimal rendering. -/
def padNum (w n : Nat) : PyStr :=
  let ds := Nat.toDigits 10 n
  List.replicate (w - ds.length) '0' ++ ds

/-- datetime.isoformat to the second: YYYY-MM-DDTHH:MM:SS. -/
def isoformat (dt : PyDateTime) : PyStr :=
  padNum 4 dt.year ++ lit "-" ++ padNum 2 dt.month ++ lit "-" ++ padNum 2 dt.day ++
    lit "T" ++ padNum 2 dt.hour ++ lit ":" ++ padNum 2 dt.minute ++ lit ":" ++
    padNum 2 dt.second

/-- The left-to-right mark U+200E. -/
def lrm : Char := Char.ofNat 0x200E

/-- The right-to-left mark U+200F. -/
def rlm : Char := Char.ofNat 0x200F

/-- Remove every occurrence of the two bidirectional control marks, as the
two str.replace calls in the source do. -/
def stripMarks (s : PyStr) : PyStr :=
  s.filter (fun c => ¬ (c = lrm ∨ c = rlm))

/-- utils.try_parse_datetime: on a missing or empty string return none;
otherwise strip whitespace and bidirectional marks, then try the dateutil
parse with dayfirst false and, only if that raises, with dayfirst true;
the first success is rendered in ISO format, and none is returned when
both attempts raise. -/
def try_parse_datetime (dp : DateParseFn) (dt_str : Option PyStr) : Option PyStr :=
  match dt_str with
  | none => none
  | some s0 =>
    if s0 = [] then none
    else
      let s := stripMarks (pyStrip s0)
      match dp false s with
      | some dt => some (isoformat dt)
      | none =>
        match dp true s with
        | some dt => some (isoformat dt)
        | none => none

/-! ## utils.clean_pre_plain and utils.parse_pre_plain

The three regular expressions of parse_pre_plain are embedded as explicit
scanning functions; each function was derived from the corresponding
pattern together with the backtracking semantics of re.match. -/

/-- Consume a leading run of literal > or &gt; tokens. -/
def gtTokens : PyStr → PyStr
  | '&' :: 'g' :: 't' :: ';' :: rest => gtTokens rest
  | '>' :: rest => gtTokens rest
  | s => s

/-- One substitution of the anchored pattern (?:&gt;|>)+\s* at the start
of the string: when at least one token is present, the token run and the
following whitespace are removed. -/
def stripGtRun (s : PyStr) : PyStr :=
  match s with
  | '&' :: 'g' :: 't' :: ';' :: rest => (gtTokens rest).dropWhile isPyWs
  | '>' :: rest => (gtTokens rest).dropWhile isPyWs
  | _ => s

/-- Replace every maximal run of carriage returns and newlines by a single
space, as re.sub with the pattern [\r\n]+ does; the flag records whether
the previous character belonged to such a run. -/
def collapseNL : Bool → PyStr → PyStr
  | _, [] => []
  | inRun, c :: rest =>
    if c = '\r' ∨ c = '\n' then
      (if inRun then [] else [' ']) ++ collapseNL true rest
    else c :: collapseNL false rest

/-- utils.clean_pre_plain: strip, drop a leading quote-marker run, collapse
newline runs to spaces, strip again.  none in, none out. -/
def clean_pre_plain (raw : Option PyStr) : Option PyStr :=
  match raw with
  | none => none
  | some r => some (pyStrip (collapseNL false (stripGtRun (pyStrip r))))

/-- Whether the tail after the closing bracket matches \s*[^:]+:?\s*$ :
the tail must be nonempty, and when it contains a colon, the first colon
must not be its first character and only whitespace may follow it. -/
def bracketTailOk (r : PyStr) : Bool :=
  if r = [] then false
  else
    match r.dropWhile (· ≠ ':') with
    | [] => true
    | _ :: after => (r.takeWhile (· ≠ ':') ≠ []) && after.all isPyWs

/-- The shape [timestamp] sender: anchored at both ends, returning the
captured timestamp text. -/
def matchTsSender (s : PyStr) : Option PyStr :=
  match s.dropWhile isPyWs with
  | '[' :: rest =>
    let ts := rest.takeWhile (· ≠ ']')
    match rest.dropWhile (· ≠ ']') with
    | ']' :: tail => if ts ≠ [] ∧ bracketTailOk tail then some ts else none
    | _ => none
  | _ => none

/-- The shape [timestamp] at the start of the string, returning the
captured timestamp text. -/
def matchTsOnly (s : PyStr) : Option PyStr :=
  match s.dropWhile isPyWs with
  | '[' :: rest =>
    let ts := rest.takeWhile (· ≠ ']')
    match rest.dropWhile (· ≠ ']') with
    | ']' :: _ => if ts ≠ [] then some ts else none
    | _ => none
  | _ => none

/-- Read one or two leading digits such that the next character is a colon
or a period, preferring two digits, as the greedy \d{1,2}[:.] does.
Returns the digit text and the input after the separator. -/
def takeHour (s : PyStr) : Option (PyStr × Char × PyStr) :=
  match s with
  | a :: b :: c :: rest =>
    if isDigit a ∧ isDigit b ∧ (c = ':' ∨ c = '.') then some ([a, b], c, rest)
    else if isDigit a ∧ (b = ':' ∨ b = '.') then some ([a], b, c :: rest)
    else none
  | a :: b :: rest =>
    if isDigit a ∧ (b = ':' ∨ b = '.') then some ([a], b, rest)
    else none
  | _ => none

/-- The optional meridian suffix \s*(?:AM|PM|am|pm), returned together
with the consumed whitespace when present. -/
def meridian (s : PyStr) : PyStr :=
  let ws := s.takeWhile isPyWs
  match s.dropWhile isPyWs with
  | 'A' :: 'M' :: _ => ws ++ lit "AM"
  | 'P' :: 'M' :: _ => ws ++ lit "PM"
  | 'a' :: 'm' :: _ => ws ++ lit "am"
  | 'p' :: 'm' :: _ => ws ++ lit "pm"
  | _ => []

/-- The bare time shape HH:MM with an optional AM or PM suffix, anchored
at the start of the string, returning the captured text. -/
def matchBareTime (s : PyStr) : Option PyStr :=
  match takeHour s with
  | none => none
  | some (hh, sep, rest) =>
    match rest with
    | m1 :: m2 :: rest2 =>
      if isDigit m1 ∧ isDigit m2 then
        some (hh ++ [sep, m1, m2] ++ meridian rest2)
      else none
    | _ => none

/-- The result of utils.parse_pre_plain: the raw attribute value as given
and the extracted timestamp text, when one of the three shapes matched. -/
structure PrePlain where
  raw : Option PyStr
  ts_str : Option PyStr
deriving DecidableEq

/-- utils.parse_pre_plain: clean the attribute text and try the three
recognized header shapes in order, keeping the first match. -/
def parse_pre_plain (pre_raw : Option PyStr) : PrePlain :=
  match pre_raw with
  | none => ⟨none, none⟩
  | some p =>
    if p = [] then ⟨some p, none⟩
    else
      let s := (clean_pre_plain (some p)).getD []
      match matchTsSender s with
      | some ts => ⟨some p, some (pyStrip ts)⟩
      | none =>
        match matchTsOnly s with
        | some ts => ⟨some p, some (pyStrip ts)⟩
        | none =>
          match matchBareTime s with
          | some ts => ⟨some p, some (pyStrip ts)⟩
          | none => ⟨some p, none⟩

/-! ## extractors.HTMLMessageExtractor

BeautifulSoup is an external library; a message node is modelled by the
two data attributes the code reads and by the visible text that get_text
returns for it.  A document is modelled by the ordered match lists of the
three structural probes the code tries. -/

/-- A message node: the two pre-plain data attributes and the visible
text. -/
structure Tag where
  attr1 : Option PyStr
  attr2 : Option PyStr
  text : PyStr
deriving DecidableEq

/-- A raw message record: visible text and the timestamp, which is either
the ISO rendering or the raw header text, or missing. -/
structure RawMsg where
  text : PyStr
  timestamp : Option PyStr
deriving DecidableEq

/-- extractors.HTMLMessageExtractor.extract_from_tag: parse the pre-plain
header, strip its exact duplication from the visible text, and attach the
normalized or raw timestamp. -/
def extract_from_tag (dp : DateParseFn) (tag : Tag) : RawMsg :=
  let pre := pyOr tag.attr1 tag.attr2
  let parsed := parse_pre_plain pre
  let v0 := tag.text
  let v1 :=
    match parsed.raw with
    | some r =>
      if r ≠ [] then
        let raw := pyStrip r
        if raw.isPrefixOf v0 then pyStrip (v0.drop raw.length) else v0
      else v0
    | none => v0
  let ts_iso := try_parse_datetime dp parsed.ts_str
  ⟨v1, pyOr ts_iso parsed.ts_str⟩

/-- A parsed document: the ordered matches of the three structural probes
(the data-pre-plain-text attribute, its underscore variant, and the
copyable-text class selector). -/
structure Document where
  prePlainTags : List Tag
  prePlain2Tags : List Tag
  copyableTags : List Tag

/-- The probe cascade of extract_from_html: the first probe with at least
one match wins. -/
def selectElems (d : Document) : List Tag :=
  if d.prePlainTags ≠ [] then d.prePlainTags
  else if d.prePlain2Tags ≠ [] then d.prePlain2Tags
  else d.copyableTags

/-- The retention test of extract_from_html: both the text and the
timestamp must be present and nonempty. -/
def keepMsg (m : RawMsg) : Bool :=
  (!m.text.isEmpty) && (match m.timestamp with | none => false | some t => !t.isEmpty)

/-- The accumulating message loop of extract_from_html. -/
def extractLoop (dp : DateParseFn) : List Tag → List RawMsg → List RawMsg
  | [], acc => acc
  | t :: rest, acc =>
    let msg := extract_from_tag dp t
    extractLoop dp rest (if keepMsg msg then acc ++ [msg] else acc)

/-- extractors.HTMLMessageExtractor.extract_from_html on an already-read
document: run the probe cascade, extract each matched node in order, and
keep the records that pass the retention test.  The per-node try block of
the source cannot fire in the pure model. -/
def extract_from_html (dp : DateParseFn) (d : Document) : List RawMsg :=
  extractLoop dp (selectElems d) []

/-! ## parser.OllamaJobParser.parse_job_post

The outcome of the single requests.post call is an input of the model: a
timeout, a connection failure, another raised exception, or an HTTP
response with a status code and a body.  Every raised exception is caught
by the source (the inner handler catches the JSON decode error of the
extracted span, the outer handler everything else), so the model is a
total function into an optional parsed object. -/

/-- The outcome of the outbound provider request. -/
inductive ProviderResult where
  | timeout
  | connectionError
  | otherError
  | response (status : Nat) (body : PyStr)

/-- Python str.find for a single character: the first index, or -1. -/
def pyFind (s : PyStr) (c : Char) : Int :=
  match s.findIdx? (· = c) with
  | some i => (i : Int)
  | none => -1

/-- Python str.rfind for a single character: the last index, or -1. -/
def pyRfind (s : PyStr) (c : Char) : Int :=
  match s.reverse.findIdx? (· = c) with
  | some i => ((s.length - 1 - i : Nat) : Int)
  | none => -1

/-- The span selection of parse_job_post: the substring from the first
opening brace to the last closing brace inclusive, or none when the
indices do not delimit a span (printed as No JSON by the source). -/
def extractSpan (t : PyStr) : Option PyStr :=
  let start := pyFind t lbrace
  let stop := pyRfind t rbrace + 1
  if start < 0 ∨ stop ≤ start then none
  else some ((t.drop start.toNat).take (stop - start).toNat)

/-- The validity gate applied to the parsed span: the value must be an
object (otherwise the .get call raises and the outer handler returns
none) whose valid entry is truthy. -/
def validGate : JValue → Option Obj
  | .obj d => if pyTruthy (objGet d (lit "valid") (.bool false)) then some d else none
  | _ => none

/-- Lines 88 to 106 of parser.py: extract the brace span from the
(already stripped) response text, parse it as JSON and apply the validity
gate; every failure yields none. -/
def handleResponseText (t : PyStr) : Option Obj :=
  (extractSpan t).bind (fun s => (jsonLoads s).bind validGate)

/-- Decode the HTTP body: response.json() must yield an object, whose
response entry must be a string (otherwise an exception reaches the outer
handler), which is then stripped. -/
def bodyRespText (body : PyStr) : Option PyStr :=
  match jsonLoads body with
  | some (.obj d) => (getStr? (objGet d (lit "response") (.str []))).map pyStrip
  | _ => none

/-- parser.OllamaJobParser.parse_job_post, given the outcome of the
provider request: a timeout, connection failure, other raised exception
or non-success status yields none; on a 200 response the body is decoded,
the brace span of the response text is parsed as JSON, and the validity
gate decides whether the parsed object is returned. -/
def parse_job_post (pr : ProviderResult) : Option Obj :=
  match pr with
  | .timeout => none
  | .connectionError => none
  | .otherError => none
  | .response status body =>
    if status ≠ 200 then none
    else (bodyRespText body).bind handleResponseText

/-! ## The two process_post variants and the storage layer -/

/-- models.JobPost (and the equivalent dataclass of main.py, whose
posted_date field is stored here as date_posted).  The four optional
fields hold the parsed JSON values unchanged. -/
structure JobPost where
  role : PyStr
  company_name : PyStr
  location : PyStr
  experience_required : JValue
  job_type : JValue
  application_link : JValue
  description : JValue
  source : PyStr
  date_posted : PyStr
  extracted_at : PyStr
  post_id : PyStr

/-- master.JobAggregator.process_post: reject when the parser returned
nothing or the valid entry is not truthy; otherwise hash company, role
and the message timestamp into the post id and build the record, with
Unknown and Not specified defaults for missing fields.  The now argument
stands for the current time read by time.strftime. -/
def masterProcessPost (parsed_data : Option Obj) (timestamp source_name now : PyStr) :
    Option JobPost :=
  match parsed_data with
  | none => none
  | some d =>
    if d.isEmpty then none
    else if ¬ pyTruthy (objGet d (lit "valid") .null) then none
    else
      some
        { role := pyStrip (pyStrVal (objGet d (lit "role") (.str (lit "Unknown"))))
          company_name :=
            pyStrip (pyStrVal (objGet d (lit "company_name") (.str (lit "Unknown"))))
          location :=
            pyStrip (pyStrVal (objGet d (lit "location") (.str (lit "Not specified"))))
          experience_required := objGet d (lit "experience_required") .null
          job_type := objGet d (lit "job_type") .null
          application_link := objGet d (lit "application_link") .null
          description := objGet d (lit "description") .null
          source := source_name
          date_posted := timestamp
          extracted_at := now
          post_id :=
            md5hex (pyStrVal (objGet d (lit "company_name") .null) ++
              pyStrVal (objGet d (lit "role") .null) ++ timestamp) }

/-- main.JobAggregator.process_post: reject when the parser returned
nothing or role or company_name is not truthy (the valid entry is not
consulted); otherwise hash company, role and location into the post id
and build the record.  The now argument stands for datetime.now(). -/
def mainProcessPost (parsed_data : Option Obj) (source_name now : PyStr) :
    Option JobPost :=
  match parsed_data with
  | none => none
  | some d =>
    if d.isEmpty then none
    else if ¬ pyTruthy (objGet d (lit "role") .null) ∨
        ¬ pyTruthy (objGet d (lit "company_name") .null) then none
    else
      some
        { role := pyStrip (pyStrVal (objGet d (lit "role") (.str (lit "Unknown"))))
          company_name :=
            pyStrip (pyStrVal (objGet d (lit "company_name") (.str (lit "Unknown"))))
          location := pyStrip (pyStrVal (objGet d (lit "location") (.str (lit "Unknown"))))
          experience_required := objGet d (lit "experience_required") .null
          job_type := objGet d (lit "job_type") .null
          application_link := objGet d (lit "application_link") .null
          description := objGet d (lit "description") .null
          source := source_name
          date_posted := now
          extracted_at := now
          post_id :=
            md5hex (pyStrVal (objGet d (lit "company_name") .null) ++
              pyStrVal (objGet d (lit "role") .null) ++
              pyStrVal (objGet d (lit "location") .null)) }

/-- database.JobDatabase.insert_job: the table declares post_id UNIQUE,
so inserting a row whose post_id is already present raises an
IntegrityError which the source catches and reports as False; otherwise
the row is appended and True is returned.  The store is the ordered list
of rows, id order being insertion order. -/
def insert_job (db : List JobPost) (job : JobPost) : List JobPost × Bool :=
  if db.any (fun r => decide (r.post_id = job.post_id)) then (db, false)
  else (db ++ [job], true)

/-- The fixed similarity score written into every duplicate link: the
default threshold argument 0.8, as the rational 4 / 5. -/
def simScore : ℚ := 4 / 5

/-- The raw equality used by the dedup join of main.py: exact,
case-sensitive equality of company_name, role and location between the
rows with the given rowids. -/
def rowEq (db : List JobPost) (i j : Nat) : Bool :=
  match db.get? i, db.get? j with
  | some r1, some r2 =>
    decide (r1.company_name = r2.company_name) &&
      decide (r1.role = r2.role) && decide (r1.location = r2.location)
  | _, _ => false

/-- The self-join of main.JobDatabase.deduplicate_jobs: every index pair
i < j whose rows agree exactly on company_name, role and location, in
nested-loop order. -/
def dedupPairs (db : List JobPost) : List (Nat × Nat) :=
  ((List.range db.length).map (fun i =>
    (List.range db.length).filterMap (fun j =>
      if i < j ∧ rowEq db i j then some (i, j) else none))).flatten

/-- The post_id of the row at an index (the rows are in rowid order). -/
def postIdAt (db : List JobPost) (i : Nat) : PyStr :=
  match db.get? i with
  | some r => r.post_id
  | none => []

/-- main.JobDatabase.deduplicate_jobs: the rows written into the
duplicates table in one pass, one per joined pair, each carrying the two
post ids and the constant similarity score.  The source returns the
number of joined pairs, the length of this list. -/
def deduplicate_jobs (db : List JobPost) : List (PyStr × PyStr × ℚ) :=
  (dedupPairs db).map (fun ij => (postIdAt db ij.1, postIdAt db ij.2, simScore))

/-! ## Spec-side normalization

The specification speaks of the tuple (company_name, role, location)
normalized by trimming and case folding; the following definition follows
those words (not the source, which nowhere normalizes) so that claims
about normalized tuples can be stated. -/

/-- Lowercase a string, character by character. -/
def lowerStr (s : PyStr) : PyStr := s.map Char.toLower

/-- The normalized identity tuple of the specification: trimmed,
case-insensitive company, role and location. -/
def specNormTuple (j : JobPost) : PyStr × PyStr × PyStr :=
  (lowerStr (pyStrip j.company_name), lowerStr (pyStrip j.role),
    lowerStr (pyStrip j.location))

/-! ## Concrete values used by witnesses and counterexamples -/

/-- A dateutil stand-in that always raises. -/
def dpNone : DateParseFn := fun _ _ => none

/-- A dateutil stand-in that recognizes exactly one input in month-first
mode. -/
def dpJan2 : DateParseFn := fun dayfirst s =>
  if s = lit "1/2/2025" ∧ dayfirst = false then some ⟨2025, 1, 2, 0, 0, 0⟩ else none

/-- A document whose only probe match is a node with visible text but no
pre-plain header. -/
def docNoTs : Document := ⟨[], [], [⟨none, none, lit "hello"⟩]⟩

/-- A node whose header timestamp text no date library would parse. -/
def tagOddTs : Tag := ⟨some (lit "[99:99] A:"), none, lit "hi"⟩

/-- A job row with the given identity fields and post id. -/
def mkJob (company role location pid : String) : JobPost :=
  ⟨lit role, lit company, lit location, .null, .null, .null, .null,
    lit "src", lit "2025-01-01", lit "2025-01-01", lit pid⟩

/-- A parsed object carrying role, company and location strings. -/
def mkObj (company role location : String) : Obj :=
  [(lit "role", .str (lit role)), (lit "company_name", .str (lit company)),
    (lit "location", .str (lit location))]

/-- A provider body whose response text is the object with only a true
valid entry. -/
def bodyValidOnly : PyStr :=
  lit "\x7b\"response\": \"\x7b\\\"valid\\\": true\x7d\"\x7d"

/-! ## Helper lemmas -/

/-- The extraction loop is the order-preserving filter of the per-node
extraction over the selected nodes. -/
lemma extractLoop_eq (dp : DateParseFn) (ts : List Tag) (acc : List RawMsg) :
    extractLoop dp ts acc = acc ++ (ts.map (extract_from_tag dp)).filter keepMsg := by
  induction ts generalizing acc with
  | nil => simp [extractLoop]
  | cons t rest ih =>
    by_cases h : keepMsg (extract_from_tag dp t) <;>
      simp [extractLoop, h, ih, List.append_assoc]

/-- extract_from_html as a filtered map over the probe winners. -/
lemma extract_eq_filter (dp : DateParseFn) (d : Document) :
    extract_from_html dp d =
      ((selectElems d).map (extract_from_tag dp)).filter keepMsg := by
  simpa using extractLoop_eq dp (selectElems d) []

/-! ## Claims -/

/-- C10: try_parse_datetime is total: it returns none on a missing or
empty input, otherwise either none or an ISO-format rendering of a parsed
datetime; every exception of the underlying date library (modelled by the
none results of the parse parameter) is absorbed. -/
theorem c10_try_parse_total (dp : DateParseFn) (inp : Option PyStr) :
    try_parse_datetime dp none = none ∧
    try_parse_datetime dp (some []) = none ∧
    (try_parse_datetime dp inp = none ∨
      ∃ dt : PyDateTime, try_parse_datetime dp inp = some (isoformat dt)) := by
  refine ⟨rfl, rfl, ?_⟩
  cases inp with
  | none => exact Or.inl rfl
  | some s =>
    by_cases hs : s = []
    · subst hs; exact Or.inl rfl
    · unfold try_parse_datetime
      cases h1 : dp false (stripMarks (pyStrip s)) with
      | some dt => exact Or.inr ⟨dt, by simp [hs, h1]⟩
      | none =>
        cases h2 : dp true (stripMarks (pyStrip s)) with
        | some dt => exact Or.inr ⟨dt, by simp [hs, h1, h2]⟩
        | none => exact Or.inl (by simp [hs, h1, h2])

/-- C7: timestamp normalization strips whitespace and the bidirectional
marks before parsing, tries the month-first parse first and lets it win,
falls back to the day-first parse, and when both fail the extractor keeps
the raw header text as the timestamp. -/
theorem c7_timestamp_order (dp : DateParseFn) (s : PyStr) (hs : s ≠ []) :
    (∀ dt, dp false (stripMarks (pyStrip s)) = some dt →
      try_parse_datetime dp (some s) = some (isoformat dt)) ∧
    (∀ dt, dp false (stripMarks (pyStrip s)) = none →
      dp true (stripMarks (pyStrip s)) = some dt →
      try_parse_datetime dp (some s) = some (isoformat dt)) ∧
    (dp false (stripMarks (pyStrip s)) = none →
      dp true (stripMarks (pyStrip s)) = none →
      try_parse_datetime dp (some s) = none) ∧
    (∀ tag : Tag, (parse_pre_plain (pyOr tag.attr1 tag.attr2)).ts_str = some s →
      try_parse_datetime dp (some s) = none →
      (extract_from_tag dp tag).timestamp = some s) := by
  refine ⟨?_, ?_, ?_, ?_⟩
  · intro dt h1; unfold try_parse_datetime; simp [hs, h1]
  · intro dt h1 h2; unfold try_parse_datetime; simp [hs, h1, h2]
  · intro h1 h2; unfold try_parse_datetime; simp [hs, h1, h2]
  · intro tag hts hNone
    simp only [extract_from_tag]
    rw [hts, hNone]
    rfl

/-- Witness for C7 at a concrete oracle and input: the month-first parse
of 1/2/2025 wins and is emitted in ISO form. -/
theorem c7_timestamp_order_witness :
    try_parse_datetime dpJan2 (some (lit "1/2/2025")) =
      some (isoformat ⟨2025, 1, 2, 0, 0, 0⟩) :=
  (c7_timestamp_order dpJan2 (lit "1/2/2025") (by decide)).1 ⟨2025, 1, 2, 0, 0, 0⟩ rfl

/-- C9: extraction is a deterministic function of the parsed document
(and of the date-parse function): equal documents give equal ordered
message sequences, so a second run repeats the first exactly. -/
theorem c9_extract_deterministic (dp : DateParseFn) (d1 d2 : Document) (h : d1 = d2) :
    extract_from_html dp d1 = extract_from_html dp d2 := by rw [h]

/-- Witness for C9: two runs on the same concrete document agree. -/
theorem c9_extract_deterministic_witness :
    extract_from_html dpNone docNoTs = extract_from_html dpNone docNoTs :=
  c9_extract_deterministic dpNone docNoTs docNoTs rfl

/-- C6, counterexample: a matched node with non-empty visible text but no
pre-plain header yields no emitted record, because the retention test of
extract_from_html also requires a truthy timestamp; the claim that text
alone suffices is false. -/
theorem c6_counterexample :
    (extract_from_tag dpNone ⟨none, none, lit "hello"⟩).text = lit "hello" ∧
    (extract_from_tag dpNone ⟨none, none, lit "hello"⟩).text ≠ [] ∧
    extract_from_html dpNone docNoTs = [] := ⟨rfl, by decide, rfl⟩

/-- C6 as amended: a record is emitted for a matched node exactly when
both its text and its (ISO or raw) timestamp are nonempty; emitted
records keep document order (the output is the order-preserving filter of
the per-node extraction), and an unparseable timestamp is kept as the raw
header text rather than dropped. -/
theorem c6_retention (dp : DateParseFn) (d : Document) (t : Tag) :
    extract_from_html dp d =
      ((selectElems d).map (extract_from_tag dp)).filter keepMsg ∧
    (∀ m ∈ extract_from_html dp d,
      m.text ≠ [] ∧ ∃ ts, m.timestamp = some ts ∧ ts ≠ []) ∧
    (try_parse_datetime dp (parse_pre_plain (pyOr t.attr1 t.attr2)).ts_str = none →
      (extract_from_tag dp t).timestamp = (parse_pre_plain (pyOr t.attr1 t.attr2)).ts_str) := by
  refine ⟨extract_eq_filter dp d, ?_, ?_⟩
  · intro m hm
    rw [extract_eq_filter] at hm
    have hk : keepMsg m = true := List.of_mem_filter hm
    unfold keepMsg at hk
    simp only [Bool.and_eq_true] at hk
    refine ⟨by simpa using hk.1, ?_⟩
    cases hts : m.timestamp with
    | none => rw [hts] at hk; simp at hk
    | some ts =>
      rw [hts] at hk
      exact ⟨ts, rfl, by simpa using hk.2⟩
  · intro hNone
    simp only [extract_from_tag]
    rw [hNone]
    cases (parse_pre_plain (pyOr t.attr1 t.attr2)).ts_str <;> rfl

/-- Witness for C6 as amended: a header whose timestamp text parses as no
date is kept raw on the extracted record. -/
theorem c6_retention_witness :
    (extract_from_tag dpNone tagOddTs).timestamp = some (lit "99:99") :=
  ((c6_retention dpNone docNoTs tagOddTs).2.2 rfl).trans rfl

/-- C4: the structuring engine yields no candidate on a provider timeout,
a connection failure, any other raised request exception, a non-success
status, a failed JSON parse of the extracted span, or a parsed object
whose valid entry is falsy; the model is a total function, so no
exception escapes the component. -/
theorem c4_no_candidate (st : Nat) (body rt s : PyStr) (v : JValue) :
    parse_job_post .timeout = none ∧
    parse_job_post .connectionError = none ∧
    parse_job_post .otherError = none ∧
    (st ≠ 200 → parse_job_post (.response st body) = none) ∧
    (extractSpan rt = none → handleResponseText rt = none) ∧
    (extractSpan rt = some s → jsonLoads s = none → handleResponseText rt = none) ∧
    (extractSpan rt = some s → jsonLoads s = some v → validGate v = none →
      handleResponseText rt = none) ∧
    (∀ d : Obj, pyTruthy (objGet d (lit "valid") (.bool false)) = false →
      validGate (.obj d) = none) := by
  refine ⟨rfl, rfl, rfl, ?_, ?_, ?_, ?_, ?_⟩
  · intro h; simp [parse_job_post, h]
  · intro h; simp [handleResponseText, h]
  · intro h1 h2; simp [handleResponseText, h1, h2]
  · intro h1 h2 h3; simp [handleResponseText, h1, h2, h3]
  · intro d h; simp [validGate, h]

/-- Witness for C4 at concrete failing inputs: a 500 status, a span-free
response text, a span that is not JSON, and a response whose valid entry
is false all produce no candidate. -/
theorem c4_no_candidate_witness :
    parse_job_post (.response 500 (lit "x")) = none ∧
    handleResponseText (lit "no braces here") = none ∧
    handleResponseText (lit "\x7bnot json\x7d") = none ∧
    parse_job_post (.response 200 (lit "\x7b\"response\": \"\x7b\\\"valid\\\": false\x7d\"\x7d")) = none := by
  refine ⟨?_, ?_, ?_, ?_⟩
  · exact (c4_no_candidate 500 (lit "x") [] [] .null).2.2.2.1 (by decide)
  · exact (c4_no_candidate 500 [] (lit "no braces here") [] .null).2.2.2.2.1 rfl
  · exact (c4_no_candidate 500 [] (lit "\x7bnot json\x7d") (lit "\x7bnot json\x7d")
      .null).2.2.2.2.2.1 rfl rfl
  · rfl

/-- C3, counterexample: a provider response whose JSON object carries
only a true valid entry — no role, no company_name — passes the parser
and is promoted by master.process_post to a JobPost with the placeholder
role Unknown; the claim that a candidate missing role or company_name is
never promoted is false. -/
theorem c3_counterexample :
    parse_job_post (.response 200 bodyValidOnly) = some [(lit "valid", .bool true)] ∧
    objGet [(lit "valid", JValue.bool true)] (lit "role") .null = .null ∧
    (masterProcessPost (parse_job_post (.response 200 bodyValidOnly))
      (lit "2025-01-01") (lit "src") (lit "now")).isSome = true ∧
    (masterProcessPost (parse_job_post (.response 200 bodyValidOnly))
      (lit "2025-01-01") (lit "src") (lit "now")).map JobPost.role =
        some (lit "Unknown") :=
  ⟨rfl, rfl, rfl, rfl⟩

/-- C3 as amended: promotion in master.process_post depends only on the
parser having returned a non-empty object with a truthy valid entry
(role and company_name are not consulted, missing ones become Unknown);
promotion in main.process_post depends only on role and company_name
being truthy (the valid entry is not consulted). -/
theorem c3_promotion_gates (d : Obj) (t s n : PyStr) :
    ((masterProcessPost (some d) t s n).isSome = true ↔
      (d.isEmpty = false ∧ pyTruthy (objGet d (lit "valid") .null) = true)) ∧
    ((mainProcessPost (some d) s n).isSome = true ↔
      (d.isEmpty = false ∧ pyTruthy (objGet d (lit "role") .null) = true ∧
        pyTruthy (objGet d (lit "company_name") .null) = true)) := by
  constructor
  · by_cases h1 : d.isEmpty <;>
      by_cases h2 : pyTruthy (objGet d (lit "valid") .null) <;>
        simp [masterProcessPost, h1, h2]
  · by_cases h1 : d.isEmpty <;>
      by_cases h2 : pyTruthy (objGet d (lit "role") .null) <;>
        by_cases h3 : pyTruthy (objGet d (lit "company_name") .null) <;>
          simp [mainProcessPost, h1, h2, h3]

/-- Witness for C3 as amended: the object with only a true valid entry is
promoted by the master gate. -/
theorem c3_promotion_gates_witness :
    (masterProcessPost (some [(lit "valid", JValue.bool true)])
      (lit "t") (lit "s") (lit "n")).isSome = true :=
  (c3_promotion_gates [(lit "valid", JValue.bool true)] (lit "t") (lit "s")
    (lit "n")).1.mpr ⟨rfl, rfl⟩

/-- C2: inserting a job whose post_id is already present returns the
duplicate outcome and leaves the store unchanged; a fresh post_id appends
exactly one row and returns the inserted outcome; and post_id uniqueness
of the store is preserved by every insert. -/
theorem c2_insert_if_absent (db : List JobPost) (job : JobPost)
    (hu : (db.map JobPost.post_id).Nodup) :
    ((∃ r ∈ db, r.post_id = job.post_id) → insert_job db job = (db, false)) ∧
    ((∀ r ∈ db, r.post_id ≠ job.post_id) → insert_job db job = (db ++ [job], true)) ∧
    (((insert_job db job).1.map JobPost.post_id).Nodup) := by
  by_cases h : db.any (fun r => decide (r.post_id = job.post_id))
  · have hdup : insert_job db job = (db, false) := by simp [insert_job, h]
    refine ⟨fun _ => hdup, ?_, by rw [hdup]; exact hu⟩
    intro hall
    rcases List.any_eq_true.mp h with ⟨r, hr, hpr⟩
    exact absurd (of_decide_eq_true hpr) (hall r hr)
  · have hnew : insert_job db job = (db ++ [job], true) := by simp [insert_job, h]
    refine ⟨?_, fun _ => hnew, ?_⟩
    · intro hex
      rcases hex with ⟨r, hr, hpr⟩
      exact absurd (List.any_eq_true.mpr ⟨r, hr, decide_eq_true hpr⟩) h
    · rw [hnew]
      simp only [List.map_append, List.map_cons, List.map_nil]
      rw [List.nodup_append]
      refine ⟨hu, List.nodup_singleton _, ?_⟩
      intro a ha hb
      rcases List.mem_map.mp ha with ⟨r, hr, hpr⟩
      have : a = job.post_id := by simpa using hb
      subst this
      exact absurd (List.any_eq_true.mpr ⟨r, hr, decide_eq_true hpr⟩) h

/-- Witness for C2 at a concrete store: a repeated post_id is rejected
without change and a fresh one is appended. -/
theorem c2_insert_if_absent_witness :
    insert_job [mkJob "c" "r" "l" "aa"] (mkJob "c2" "r2" "l2" "aa") =
      ([mkJob "c" "r" "l" "aa"], false) ∧
    insert_job [mkJob "c" "r" "l" "aa"] (mkJob "c2" "r2" "l2" "bb") =
      ([mkJob "c" "r" "l" "aa", mkJob "c2" "r2" "l2" "bb"], true) := by
  constructor
  · exact (c2_insert_if_absent [mkJob "c" "r" "l" "aa"] (mkJob "c2" "r2" "l2" "aa")
      (by simp)).1 ⟨mkJob "c" "r" "l" "aa", List.mem_singleton_self _, rfl⟩
  · exact (c2_insert_if_absent [mkJob "c" "r" "l" "aa"] (mkJob "c2" "r2" "l2" "bb")
      (by simp)).2.1 (by intro r hr; rw [List.mem_singleton.mp hr]; decide)

/-- The post id assigned by main.process_post is the hash of the raw
company, role and location values of the parsed object. -/
lemma mainProcessPost_post_id (d : Obj) (s n : PyStr) (j : JobPost)
    (h : mainProcessPost (some d) s n = some j) :
    j.post_id = md5hex (pyStrVal (objGet d (lit "company_name") .null) ++
      pyStrVal (objGet d (lit "role") .null) ++
      pyStrVal (objGet d (lit "location") .null)) := by
  simp only [mainProcessPost] at h
  split_ifs at h with h1 h2
  obtain rfl := Option.some.inj h
  rfl

set_option maxRecDepth 400000 in
/-- C1, counterexample: two accepted candidates whose identity tuples
agree after trimming and case folding — company Acme versus acme — are
assigned different post ids by main.process_post, because the hash is
taken over the raw values; the claim that equal normalized tuples always
receive equal post ids is false. -/
theorem c1_counterexample :
    (mainProcessPost (some (mkObj "Acme" "Dev" "NY")) (lit "s") (lit "T")).isSome = true ∧
    (mainProcessPost (some (mkObj "acme" "Dev" "NY")) (lit "s") (lit "T")).isSome = true ∧
    (mainProcessPost (some (mkObj "Acme" "Dev" "NY")) (lit "s") (lit "T")).map specNormTuple =
      (mainProcessPost (some (mkObj "acme" "Dev" "NY")) (lit "s") (lit "T")).map specNormTuple ∧
    (mainProcessPost (some (mkObj "Acme" "Dev" "NY")) (lit "s") (lit "T")).map JobPost.post_id ≠
      (mainProcessPost (some (mkObj "acme" "Dev" "NY")) (lit "s") (lit "T")).map JobPost.post_id := by
  exact ⟨rfl, rfl, rfl, by decide⟩

/-- C1 as amended: the post id assigned by main.process_post is a
deterministic function of the raw, unnormalized (company_name, role,
location) values of the parsed object and of nothing else — in particular
independent of source name and of the current time; equality is only
guaranteed for raw-equal values, not for normalized-equal ones (and the
master.py variant hashes the timestamp instead of the location). -/
theorem c1_post_id_key (d d' : Obj) (s s' n n' : PyStr) (j j' : JobPost)
    (h : mainProcessPost (some d) s n = some j)
    (h' : mainProcessPost (some d') s' n' = some j')
    (hc : objGet d (lit "company_name") .null = objGet d' (lit "company_name") .null)
    (hr : objGet d (lit "role") .null = objGet d' (lit "role") .null)
    (hl : objGet d (lit "location") .null = objGet d' (lit "location") .null) :
    j.post_id = j'.post_id := by
  rw [mainProcessPost_post_id d s n j h, mainProcessPost_post_id d' s' n' j' h',
    hc, hr, hl]

/-- Witness for C1 as amended: the same parsed object processed at two
different times and source labels receives the same post id. -/
theorem c1_post_id_key_witness :
    (mainProcessPost (some (mkObj "Acme" "Dev" "NY")) (lit "s1") (lit "T1")).map
        JobPost.post_id =
      (mainProcessPost (some (mkObj "Acme" "Dev" "NY")) (lit "s2") (lit "T2")).map
        JobPost.post_id := by
  obtain ⟨j1, hj1⟩ : ∃ j, mainProcessPost (some (mkObj "Acme" "Dev" "NY"))
      (lit "s1") (lit "T1") = some j := ⟨_, rfl⟩
  obtain ⟨j2, hj2⟩ : ∃ j, mainProcessPost (some (mkObj "Acme" "Dev" "NY"))
      (lit "s2") (lit "T2") = some j := ⟨_, rfl⟩
  rw [hj1, hj2, Option.map_some', Option.map_some']
  exact congrArg some (c1_post_id_key _ _ _ _ _ _ _ _ hj1 hj2 rfl rfl rfl)

/-- The join condition of the dedup pass, in terms of the stored rows. -/
lemma rowEq_iff (db : List JobPost) (i j : Nat) :
    rowEq db i j = true ↔ ∃ r1 r2, db.get? i = some r1 ∧ db.get? j = some r2 ∧
      r1.company_name = r2.company_name ∧ r1.role = r2.role ∧
      r1.location = r2.location := by
  unfold rowEq
  cases h1 : db.get? i <;> cases h2 : db.get? j <;> simp [h1, h2, and_assoc]

/-- Membership in the dedup self-join. -/
lemma mem_dedupPairs (db : List JobPost) (i j : Nat) :
    (i, j) ∈ dedupPairs db ↔ i < j ∧ j < db.length ∧ rowEq db i j = true := by
  unfold dedupPairs
  rw [List.mem_flatten]
  constructor
  · rintro ⟨l, hl, hmem⟩
    rcases List.mem_map.mp hl with ⟨i', hi', rfl⟩
    rcases List.mem_filterMap.mp hmem with ⟨j', hj', hf⟩
    split_ifs at hf with hc
    injection hf with hx
    rw [Prod.mk.injEq] at hx
    obtain ⟨rfl, rfl⟩ := hx
    exact ⟨hc.1, List.mem_range.mp hj', hc.2⟩
  · rintro ⟨hij, hjlen, heq⟩
    refine ⟨(List.range db.length).filterMap
      (fun j' => if i < j' ∧ rowEq db i j' then some (i, j') else none),
      List.mem_map.mpr ⟨i, List.mem_range.mpr (lt_trans hij hjlen), rfl⟩, ?_⟩
    exact List.mem_filterMap.mpr ⟨j, List.mem_range.mpr hjlen, by simp [hij, heq]⟩

/-- Every element of an inner join list carries the outer index as its
first component. -/
lemma dedup_inner_fst (db : List JobPost) (i : Nat) (x : Nat × Nat)
    (hx : x ∈ (List.range db.length).filterMap
      (fun j => if i < j ∧ rowEq db i j then some (i, j) else none)) :
    x.1 = i := by
  rcases List.mem_filterMap.mp hx with ⟨j, _, hf⟩
  split_ifs at hf
  injection hf with hj
  rw [← hj]

/-- The dedup self-join lists each index pair at most once. -/
lemma dedupPairs_nodup (db : List JobPost) : (dedupPairs db).Nodup := by
  unfold dedupPairs
  rw [List.nodup_flatten]
  constructor
  · intro l hl
    rcases List.mem_map.mp hl with ⟨i, _, rfl⟩
    refine List.Nodup.filterMap ?_ (List.nodup_range _)
    have key : ∀ a b, b ∈ (if i < a ∧ rowEq db i a then some (i, a) else none) →
        b.2 = a := by
      intro a b hb
      split_ifs at hb
      · exact (congrArg Prod.snd (Option.some.inj (Option.mem_def.mp hb))).symm
      · exact absurd hb (by simp)
    intro a a' b hb hb'
    rw [← key a b hb, ← key a' b hb']
  · rw [List.pairwise_map]
    refine List.Pairwise.imp ?_ (List.pairwise_lt_range _)
    intro i i' hii x hx hx'
    have h1 := dedup_inner_fst db i x hx
    have h2 := dedup_inner_fst db i' x hx'
    exact absurd (h1 ▸ h2) (Nat.ne_of_lt hii)

/-- The post id read at an in-range index. -/
lemma postIdAt_eq_getElem (db : List JobPost) (i : Nat) (hi : i < db.length) :
    postIdAt db i = (db[i]).post_id := by
  unfold postIdAt
  rw [List.get?_eq_getElem?, List.getElem?_eq_getElem hi]

/-- With unique post ids, the post id determines the row index. -/
lemma postIdAt_inj (db : List JobPost) (hpid : (db.map JobPost.post_id).Nodup)
    (i i' : Nat) (hi : i < db.length) (hi' : i' < db.length)
    (h : postIdAt db i = postIdAt db i') : i = i' := by
  have h2 : (db.map JobPost.post_id)[i]? = (db.map JobPost.post_id)[i']? := by
    rw [List.getElem?_map, List.getElem?_map, List.getElem?_eq_getElem hi,
      List.getElem?_eq_getElem hi', Option.map_some', Option.map_some',
      ← postIdAt_eq_getElem db i hi, ← postIdAt_eq_getElem db i' hi', h]
  exact List.getElem?_inj (by simpa using hi) hpid h2

/-- C8, counterexample: two stored records that agree on the normalized
tuple but differ in case of the company name are not linked by the dedup
pass, because the self-join compares the raw values; the claim that every
pair with an identical normalized tuple receives a link is false. -/
theorem c8_counterexample :
    deduplicate_jobs [mkJob "Acme" "Dev" "NY" "p1", mkJob "acme" "Dev" "NY" "p2"] = [] ∧
    specNormTuple (mkJob "Acme" "Dev" "NY" "p1") =
      specNormTuple (mkJob "acme" "Dev" "NY" "p2") ∧
    (mkJob "Acme" "Dev" "NY" "p1").post_id ≠ (mkJob "acme" "Dev" "NY" "p2").post_id :=
  ⟨rfl, rfl, by decide⟩

/-- C8 as amended: after a full ingestion cycle the dedup pass links, for
every pair of distinct stored rows agreeing exactly (case-sensitively) on
the raw (company_name, role, location) tuple, exactly one duplicate link
carrying the constant similarity score: the joined index pairs are
duplicate-free and are exactly the raw-equal pairs, and when post ids are
unique the emitted links are duplicate-free as well. -/
theorem c8_dedup_links (db : List JobPost) (i j : Nat)
    (hpid : (db.map JobPost.post_id).Nodup) :
    (dedupPairs db).Nodup ∧
    ((i, j) ∈ dedupPairs db ↔ i < j ∧ ∃ r1 r2, db.get? i = some r1 ∧
      db.get? j = some r2 ∧ r1.company_name = r2.company_name ∧
      r1.role = r2.role ∧ r1.location = r2.location) ∧
    deduplicate_jobs db = (dedupPairs db).map
      (fun ij => (postIdAt db ij.1, postIdAt db ij.2, simScore)) ∧
    (deduplicate_jobs db).Nodup := by
  refine ⟨dedupPairs_nodup db, ?_, rfl, ?_⟩
  · rw [mem_dedupPairs, rowEq_iff]
    constructor
    · rintro ⟨hij, _, hr⟩; exact ⟨hij, hr⟩
    · rintro ⟨hij, r1, r2, h1, h2, hs⟩
      have hlt : j < db.length := by
        by_contra hge
        rw [List.get?_eq_none.mpr (Nat.le_of_not_lt hge)] at h2
        cases h2
      exact ⟨hij, hlt, ⟨r1, r2, h1, h2, hs⟩⟩
  · unfold deduplicate_jobs
    refine List.Nodup.map_on ?_ (dedupPairs_nodup db)
    intro x hx y hy hf
    rcases x with ⟨i1, j1⟩
    rcases y with ⟨i2, j2⟩
    obtain ⟨hij1, hjlen1, _⟩ := (mem_dedupPairs db i1 j1).mp hx
    obtain ⟨hij2, hjlen2, _⟩ := (mem_dedupPairs db i2 j2).mp hy
    have hfst : postIdAt db i1 = postIdAt db i2 := congrArg (fun t => t.1) hf
    have hsnd : postIdAt db j1 = postIdAt db j2 := congrArg (fun t => t.2.1) hf
    have e1 : i1 = i2 := postIdAt_inj db hpid i1 i2 (lt_trans hij1 hjlen1)
      (lt_trans hij2 hjlen2) hfst
    have e2 : j1 = j2 := postIdAt_inj db hpid j1 j2 hjlen1 hjlen2 hsnd
    rw [e1, e2]

/-- The first brace of a span-shaped decomposition is found at the length
of the brace-free prefix. -/
lemma pyFind_decomp (pre s post : PyStr) (hpre : lbrace ∉ pre)
    (hhead : s.head? = some lbrace) :
    pyFind (pre ++ s ++ post) lbrace = (pre.length : Int) := by
  cases s with
  | nil => cases hhead
  | cons a s' =>
    have ha : a = lbrace := by simpa using hhead
    subst ha
    unfold pyFind
    rw [List.append_assoc, List.findIdx?_append]
    have hp : pre.findIdx? (fun x => decide (x = lbrace)) = none :=
      List.findIdx?_eq_none_iff.mpr
        (fun x hx => decide_eq_false (fun he => hpre (he ▸ hx)))
    rw [hp]
    simp

/-- The last brace of a span-shaped decomposition is found at the end of
the middle part. -/
lemma pyRfind_decomp (pre s post : PyStr) (hpost : rbrace ∉ post)
    (hlast : s.getLast? = some rbrace) :
    pyRfind (pre ++ s ++ post) rbrace = ((pre.length + s.length - 1 : Nat) : Int) := by
  have hsrev : s.reverse.head? = some rbrace := by
    rw [List.head?_reverse]; exact hlast
  cases hs : s.reverse with
  | nil => rw [hs] at hsrev; cases hsrev
  | cons a s' =>
    have ha : a = rbrace := by rw [hs] at hsrev; simpa using hsrev
    subst ha
    have hslen : s.length = s'.length + 1 := by
      have := congrArg List.length hs
      simpa using this
    unfold pyRfind
    have hrev : (pre ++ s ++ post).reverse =
        post.reverse ++ ((rbrace :: s') ++ pre.reverse) := by
      rw [List.reverse_append, List.reverse_append, hs]
    rw [hrev, List.findIdx?_append]
    have hp : post.reverse.findIdx? (fun x => decide (x = rbrace)) = none :=
      List.findIdx?_eq_none_iff.mpr
        (fun x hx => decide_eq_false
          (fun he => hpost (he ▸ List.mem_reverse.mp hx)))
    have hcons : ((rbrace :: s') ++ pre.reverse).findIdx?
        (fun x => decide (x = rbrace)) = some 0 := by simp
    rw [hp, hcons]
    simp only [Option.none_or, Option.map_some', Nat.zero_add]
    have hlen : (pre ++ s ++ post).length = pre.length + s.length + post.length := by
      simp [Nat.add_assoc]
    rw [hlen]
    congr 1
    simp only [List.length_reverse]
    omega

/-- On a span-shaped decomposition, the span selection returns exactly
the middle part. -/
lemma extractSpan_decomp (pre s post : PyStr) (hpre : lbrace ∉ pre)
    (hpost : rbrace ∉ post) (hhead : s.head? = some lbrace)
    (hlast : s.getLast? = some rbrace) :
    extractSpan (pre ++ s ++ post) = some s := by
  have hslen : 1 ≤ s.length := by
    cases s with
    | nil => cases hhead
    | cons _ _ => simp
  simp only [extractSpan]
  rw [pyFind_decomp pre s post hpre hhead, pyRfind_decomp pre s post hpost hlast]
  have hcond : ¬((pre.length : Int) < 0 ∨
      ((pre.length + s.length - 1 : Nat) : Int) + 1 ≤ (pre.length : Int)) := by
    push_neg
    constructor
    · exact Int.natCast_nonneg _
    · omega
  rw [if_neg hcond]
  have h1 : ((pre.length : Int)).toNat = pre.length := by simp
  have h2 : ((((pre.length + s.length - 1 : Nat) : Int) + 1) - (pre.length : Int)).toNat
      = s.length := by omega
  rw [h1, h2, List.append_assoc, List.drop_left]
  exact congrArg some (List.take_left' rfl)

/-- The two outcome shapes of the first-index search. -/
lemma pyFind_cases (s : PyStr) (c : Char) :
    (s.findIdx? (fun x => decide (x = c)) = none ∧ pyFind s c = -1) ∨
    ∃ i, s.findIdx? (fun x => decide (x = c)) = some i ∧ pyFind s c = (i : Int) := by
  unfold pyFind
  cases h : s.findIdx? (fun x => decide (x = c)) with
  | none => exact Or.inl ⟨rfl, rfl⟩
  | some i => exact Or.inr ⟨i, rfl, rfl⟩

/-- The two outcome shapes of the last-index search. -/
lemma pyRfind_cases (s : PyStr) (c : Char) :
    (s.reverse.findIdx? (fun x => decide (x = c)) = none ∧ pyRfind s c = -1) ∨
    ∃ ri, s.reverse.findIdx? (fun x => decide (x = c)) = some ri ∧
      pyRfind s c = ((s.length - 1 - ri : Nat) : Int) := by
  unfold pyRfind
  cases h : s.reverse.findIdx? (fun x => decide (x = c)) with
  | none => exact Or.inl ⟨rfl, rfl⟩
  | some ri => exact Or.inr ⟨ri, rfl, rfl⟩

/-- When the span selection succeeds, the input admits a decomposition
around a middle part that opens with a brace and closes with a brace. -/
lemma extractSpan_isSome_decomp (t s2 : PyStr) (h : extractSpan t = some s2) :
    ∃ p m q, t = p ++ m ++ q ∧ m.head? = some lbrace ∧
      m.getLast? = some rbrace := by
  simp only [extractSpan] at h
  by_cases hc : (pyFind t lbrace < 0 ∨ pyRfind t rbrace + 1 ≤ pyFind t lbrace)
  · rw [if_pos hc] at h; cases h
  · push_neg at hc
    obtain ⟨hge, hlt⟩ := hc
    rcases pyFind_cases t lbrace with ⟨hf, he⟩ | ⟨i, hf, he⟩
    · exfalso; rw [he] at hge; omega
    rcases pyRfind_cases t rbrace with ⟨hr, hre⟩ | ⟨ri, hr, hre⟩
    · exfalso
      rw [he] at hge hlt
      rw [hre] at hlt
      omega
    · obtain ⟨hi_lt, hpi, _⟩ := List.findIdx?_eq_some_iff_getElem.mp hf
      obtain ⟨hri_lt, hpri, _⟩ := List.findIdx?_eq_some_iff_getElem.mp hr
      have hri_lt' : ri < t.length := by simpa using hri_lt
      have hti : t[i]? = some lbrace := by
        rw [List.getElem?_eq_getElem hi_lt]
        exact congrArg some (of_decide_eq_true hpi)
      have htj : t[t.length - 1 - ri]? = some rbrace := by
        have e : t.reverse[ri]? = some rbrace := by
          rw [List.getElem?_eq_getElem hri_lt]
          exact congrArg some (of_decide_eq_true hpri)
        rwa [List.getElem?_reverse hri_lt'] at e
      have hij : i ≤ t.length - 1 - ri := by
        rw [he] at hlt
        rw [hre] at hlt
        omega
      have hinej : i ≠ t.length - 1 - ri := by
        intro e
        rw [← e] at htj
        rw [hti] at htj
        have : lbrace = rbrace := Option.some.inj htj
        exact absurd this (by decide)
      set j := t.length - 1 - ri with hj
      have hjlen : j < t.length := by omega
      have hilj : i < j := lt_of_le_of_ne hij hinej
      refine ⟨t.take i, (t.drop i).take (j + 1 - i), t.drop (j + 1), ?_, ?_, ?_⟩
      · have e1 : (t.drop i).drop (j + 1 - i) = t.drop (j + 1) := by
          rw [List.drop_drop]
          congr 1
          omega
        conv_lhs => rw [← List.take_append_drop i t,
          ← List.take_append_drop (j + 1 - i) (t.drop i), e1]
        exact (List.append_assoc _ _ _).symm
      · rw [List.head?_eq_getElem?, List.getElem?_take_of_lt (by omega),
          List.getElem?_drop, Nat.add_zero]
        exact hti
      · have hmlen : ((t.drop i).take (j + 1 - i)).length = j + 1 - i := by
          simp only [List.length_take, List.length_drop]
          omega
        rw [List.getLast?_eq_getElem?, hmlen,
          show j + 1 - i - 1 = j - i by omega,
          List.getElem?_take_of_lt (by omega), List.getElem?_drop,
          show i + (j - i) = j by omega]
        exact htj

/-- C5: for a 200 response whose (stripped) response text decomposes as
prose, then a span opening with the first brace and closing with the last
brace, then prose, the engine extracts exactly that span, parses it alone
as JSON, and ignores the surrounding text entirely; and when no such
bracketed span exists at all, the span selection and the whole handling
yield no candidate. -/
theorem c5_brace_span (t pre s post pre' post' : PyStr)
    (hpre : lbrace ∉ pre) (hpost : rbrace ∉ post)
    (hpre' : lbrace ∉ pre') (hpost' : rbrace ∉ post')
    (hhead : s.head? = some lbrace) (hlast : s.getLast? = some rbrace) :
    extractSpan (pre ++ s ++ post) = some s ∧
    handleResponseText (pre ++ s ++ post) = (jsonLoads s).bind validGate ∧
    handleResponseText (pre ++ s ++ post) = handleResponseText (pre' ++ s ++ post') ∧
    ((∀ p m q, t = p ++ m ++ q → m.head? = some lbrace →
        m.getLast? = some rbrace → False) →
      extractSpan t = none ∧ handleResponseText t = none) := by
  have e1 := extractSpan_decomp pre s post hpre hpost hhead hlast
  have e1' := extractSpan_decomp pre' s post' hpre' hpost' hhead hlast
  refine ⟨e1, ?_, ?_, ?_⟩
  · unfold handleResponseText
    rw [e1]
    rfl
  · unfold handleResponseText
    rw [e1, e1']
  · intro hno
    have hspan : extractSpan t = none := by
      cases hcs : extractSpan t with
      | none => rfl
      | some s2 =>
        obtain ⟨p, m, q, hteq, hh, hl⟩ := extractSpan_isSome_decomp t s2 hcs
        exact (hno p m q hteq hh hl).elim
    refine ⟨hspan, ?_⟩
    unfold handleResponseText
    rw [hspan]
    rfl

/-- Witness for C5 at the scenario of the specification: prose around the
JSON object is ignored and exactly the enclosed object is parsed. -/
theorem c5_brace_span_witness :
    extractSpan (lit "Sure, here you go: " ++
        lit "\x7b\"valid\": true, \"role\": \"X\"\x7d" ++ lit " Thanks!") =
      some (lit "\x7b\"valid\": true, \"role\": \"X\"\x7d") ∧
    handleResponseText (lit "Sure, here you go: " ++
        lit "\x7b\"valid\": true, \"role\": \"X\"\x7d" ++ lit " Thanks!") =
      some [(lit "valid", JValue.bool true), (lit "role", JValue.str (lit "X"))] := by
  have h := c5_brace_span [] (lit "Sure, here you go: ")
    (lit "\x7b\"valid\": true, \"role\": \"X\"\x7d") (lit " Thanks!") [] []
    (by decide) (by decide) (by decide) (by decide) (by decide) (by decide)
  exact ⟨h.1, h.2.1.trans rfl⟩

/-- Witness for C8 as amended: a store with two raw-equal rows yields the
single link between them. -/
theorem c8_dedup_links_witness :
    (0, 1) ∈ dedupPairs [mkJob "Acme" "Dev" "NY" "q1", mkJob "Acme" "Dev" "NY" "q2"] ∧
    deduplicate_jobs [mkJob "Acme" "Dev" "NY" "q1", mkJob "Acme" "Dev" "NY" "q2"] =
      [(lit "q1", lit "q2", simScore)] := by
  constructor
  · exact (c8_dedup_links [mkJob "Acme" "Dev" "NY" "q1", mkJob "Acme" "Dev" "NY" "q2"]
      0 1 (by decide)).2.1.mpr
      ⟨Nat.zero_lt_one, mkJob "Acme" "Dev" "NY" "q1", mkJob "Acme" "Dev" "NY" "q2",
        rfl, rfl, rfl, rfl, rfl⟩
  · rfl

end JobAgg
